import Mathlib

/-!
Shallow embedding of the tkp-platform ingestion job queue and worker loop
(services/worker/src/tkp_worker/main.py and
services/api/src/tkp_api/services/ingestion.py), together with theorems
checking the natural-language specification against it.

Conventions of the embedding:
* document text is a `List Char` (Python `str` is indexed by code points);
* timestamps are `Nat` (an abstract monotone clock; SQL `now()` becomes an
  explicit `now : Nat` argument);
* ids (`tenant_id`, UUID columns, ...) are `String`;
* SQL `NULL` becomes `Option`;
* the database is a record of lists of rows, and each repository operation
  (one SQL statement in the source) is a pure function on it;
* the SHA-256 used by the idempotency key is abstracted as a parameter
  `hash : String → String`; everything around it is translated literally.
-/

namespace TkpPlatform

/-! ## Chunker (`_chunk_text` in tkp_worker/main.py) -/

/-- Python `str.strip()`: drop whitespace from both ends. -/
def pyStrip (s : List Char) : List Char :=
  ((s.dropWhile Char.isWhitespace).reverse.dropWhile Char.isWhitespace).reverse

/-- Python `s[start:stop]` for `0 ≤ start ≤ stop`. -/
def pySlice (s : List Char) (start stop : Nat) : List Char :=
  (s.drop start).take (stop - start)

/-- The `while start < total` loop of `_chunk_text`, with explicit fuel (the
source loop has no structural termination measure; `none` means the fuel ran
out before the loop exited).  Besides the chunk accumulator the embedding also
records each window `(start, end)` the loop inspects, as ghost data for the
coverage property; the chunk computed from a window is exactly
`pyStrip (pySlice text start end)` as in the source, and empty pieces are
discarded. -/
def chunkLoop (cs : List Char) (chunkSize overlap : Nat) :
    Nat → Nat → List (List Char) → List (Nat × Nat) →
    Option (List (List Char) × List (Nat × Nat))
  | 0, _, _, _ => none
  | fuel + 1, start, chunks, windows =>
    let total := cs.length
    if start < total then
      let e := min total (start + chunkSize)
      let piece := pyStrip (pySlice cs start e)
      let chunks' := if piece.isEmpty then chunks else chunks ++ [piece]
      let windows' := windows ++ [(start, e)]
      if total ≤ e then some (chunks', windows')
      else chunkLoop cs chunkSize overlap fuel (e - overlap) chunks' windows'
    else some (chunks, windows)

/-- Source `_chunk_text(content, chunk_size, overlap)`: strip, return `[]` when the
stripped text is empty, otherwise run the sliding-window loop.  The fuel
`length + 1` is enough for every terminating run (each iteration with
`chunkSize > overlap` advances `start` by at least one). -/
def chunkTextFueled (content : List Char) (chunkSize overlap : Nat) :
    Option (List (List Char)) :=
  let t := pyStrip content
  if t.isEmpty then some []
  else (chunkLoop t chunkSize overlap (t.length + 1) 0 [] []).map Prod.fst

/-- The windows inspected by `_chunk_text` (ghost data of `chunkLoop`). -/
def chunkWindows (content : List Char) (chunkSize overlap : Nat) :
    Option (List (Nat × Nat)) :=
  let t := pyStrip content
  if t.isEmpty then some []
  else (chunkLoop t chunkSize overlap (t.length + 1) 0 [] []).map Prod.snd

/-- Source `_chunk_text(content)` at the source's default arguments
`chunk_size=900, overlap=120` (the only call site, in `_process_job`).
Since `900 > 120` the loop terminates within the provided fuel
(`chunkText_default_eq` below), so the `.getD []` default is never taken. -/
def chunkText (content : List Char) : List (List Char) :=
  (chunkTextFueled content 900 120).getD []

example : chunkTextFueled ("hello world".toList) 900 120
    = some ["hello world".toList] := by decide

example : chunkTextFueled ("  \t\n ".toList) 3 1 = some [] := by decide

/-! ## Data model (`ingestion_jobs`, `document_versions`, `documents`,
`document_chunks`, `chunk_embeddings`) -/

/-- The `ingestion_jobs.status` values. -/
inductive JobStatus
  | queued
  | processing
  | retrying
  | completed
  | dead_letter
deriving DecidableEq, Repr

/-- One `ingestion_jobs` row. -/
structure IngestionJob where
  id : String
  tenant_id : String
  workspace_id : String
  kb_id : String
  document_id : String
  document_version_id : String
  idempotency_key : String
  status : JobStatus
  stage : String
  progress : Nat
  locked_at : Option Nat
  locked_by : Option String
  heartbeat_at : Option Nat
  started_at : Option Nat
  finished_at : Option Nat
  attempt_count : Nat
  max_attempts : Nat
  next_run_at : Nat
  error : Option String
  created_at : Nat
  updated_at : Nat
deriving DecidableEq, Repr

/-- One `document_versions` row (the columns the worker touches). -/
structure DocumentVersion where
  id : String
  document_id : String
  object_key : Option String
  parser_type : Option String
  parse_status : String
deriving DecidableEq, Repr

/-- One `documents` row (the columns the worker touches). -/
structure Document where
  id : String
  tenant_id : String
  workspace_id : String
  kb_id : String
  status : String
  updated_at : Nat
deriving DecidableEq, Repr

/-- One `document_chunks` row (the columns the worker writes). -/
structure DocumentChunk where
  id : String
  tenant_id : String
  workspace_id : String
  kb_id : String
  document_id : String
  document_version_id : String
  chunk_no : Nat
  content : List Char
  token_count : Nat
deriving DecidableEq, Repr

/-- One `chunk_embeddings` row (only its `chunk_id` matters to the worker's
delete statement). -/
structure ChunkEmbedding where
  chunk_id : String
deriving DecidableEq, Repr

/-- The relational store as seen by the worker and the producer. -/
structure Db where
  jobs : List IngestionJob
  versions : List DocumentVersion
  documents : List Document
  chunks : List DocumentChunk
  embeddings : List ChunkEmbedding
deriving DecidableEq, Repr

/-! ## Ingestion producer
(`build_job_idempotency_key` / `enqueue_ingestion_job` in
tkp_api/services/ingestion.py) -/

/-- Python truthiness of the optional `client_key` (`if client_key:`):
`None` and the empty string are falsy. -/
def pyTruthy : Option String → Bool
  | none => false
  | some k => !k.isEmpty

/-- Source `build_job_idempotency_key`.  The SHA-256 hexdigest is abstracted as
`hash`; the basis string, the fold-in of a truthy client key, and the
truncation `digest[:64]` are literal. -/
def build_job_idempotency_key (hash : String → String)
    (tenant_id workspace_id kb_id document_id document_version_id action : String)
    (client_key : Option String) : String :=
  let basis :=
    if pyTruthy client_key then
      tenant_id ++ ":" ++ workspace_id ++ ":" ++ kb_id ++ ":" ++ document_id
        ++ ":" ++ document_version_id ++ ":" ++ action ++ ":" ++ client_key.getD ""
    else
      tenant_id ++ ":" ++ workspace_id ++ ":" ++ kb_id ++ ":" ++ document_id
        ++ ":" ++ document_version_id ++ ":" ++ action
  (hash basis).take 64

/-- The duplicate lookup of `enqueue_ingestion_job`:
`WHERE tenant_id == :tenant AND idempotency_key == :key`. -/
def jobKeyPred (tenant_id key : String) (j : IngestionJob) : Bool :=
  j.tenant_id == tenant_id && j.idempotency_key == key

/-- The fresh row `enqueue_ingestion_job` inserts when no duplicate exists:
`status=queued, stage=queued, progress=0, attempt_count=0,
max_attempts=<configured>, next_run_at=now()`.  `newId` stands for the id
the ORM generates. -/
def enqueueNewRow
    (newId tenant_id workspace_id kb_id document_id document_version_id key : String)
    (maxAttempts : Nat) (now : Nat) : IngestionJob :=
  { id := newId
    tenant_id := tenant_id
    workspace_id := workspace_id
    kb_id := kb_id
    document_id := document_id
    document_version_id := document_version_id
    idempotency_key := key
    status := .queued
    stage := "queued"
    progress := 0
    locked_at := none
    locked_by := none
    heartbeat_at := none
    started_at := none
    finished_at := none
    attempt_count := 0
    max_attempts := maxAttempts
    next_run_at := now
    error := none
    created_at := now
    updated_at := now }

/-- Source `enqueue_ingestion_job`: derive the key, reuse an existing
`(tenant_id, idempotency_key)` row, otherwise insert a fresh `queued` row. -/
def enqueue_ingestion_job (hash : String → String) (jobs : List IngestionJob)
    (newId tenant_id workspace_id kb_id document_id document_version_id action : String)
    (client_idempotency_key : Option String) (maxAttempts : Nat) (now : Nat) :
    IngestionJob × List IngestionJob :=
  let key := build_job_idempotency_key hash tenant_id workspace_id kb_id
    document_id document_version_id action client_idempotency_key
  match jobs.find? (jobKeyPred tenant_id key) with
  | some existing => (existing, jobs)
  | none =>
    let job := enqueueNewRow newId tenant_id workspace_id kb_id document_id
      document_version_id key maxAttempts now
    (job, jobs ++ [job])

/-! ## Job repository operations (tkp_worker/main.py) -/

/-- The claimable predicate of `_claim_next_job`'s `WHERE` clause:
`status IN ('queued','retrying') AND next_run_at <= now() AND
(locked_at IS NULL OR locked_at < now() - lock_timeout)`.
`t + lockTimeout < now` is `t < now - lockTimeout` without truncated
subtraction. -/
def claimable (now lockTimeoutSeconds : Nat) (j : IngestionJob) : Bool :=
  (j.status == .queued || j.status == .retrying) &&
  decide (j.next_run_at ≤ now) &&
  (match j.locked_at with
   | none => true
   | some t => decide (t + lockTimeoutSeconds < now))

/-- The `candidate` CTE: among claimable rows, the one with the least
`created_at` (`ORDER BY created_at ... LIMIT 1`; on a `created_at` tie the
first row in table order). -/
def selectCandidate (now lockTimeoutSeconds : Nat) (jobs : List IngestionJob) :
    Option IngestionJob :=
  (jobs.filter (claimable now lockTimeoutSeconds)).foldl
    (fun acc j =>
      match acc with
      | none => some j
      | some b => if j.created_at < b.created_at then some j else acc)
    none

/-- The `SET` list of `_claim_next_job`'s `UPDATE`. -/
def claimUpdate (workerId : String) (now : Nat) (j : IngestionJob) : IngestionJob :=
  { j with
    status := .processing
    stage := "loading"
    progress := 5
    locked_at := some now
    locked_by := some workerId
    heartbeat_at := some now
    started_at := some (j.started_at.getD now)
    attempt_count := j.attempt_count + 1
    updated_at := now
    error := none }

/-- The `RETURNING` row of `_claim_next_job` (post-update values). -/
structure ClaimedRow where
  id : String
  tenant_id : String
  workspace_id : String
  kb_id : String
  document_id : String
  document_version_id : String
  attempt_count : Nat
  max_attempts : Nat
deriving DecidableEq, Repr

/-- Source `_claim_next_job`: pick the candidate, apply the update to its row
(`WHERE j.id = candidate.id`), and return the `RETURNING` columns; `none`
when no row is claimable. -/
def claim_next_job (jobs : List IngestionJob) (workerId : String)
    (lockTimeoutSeconds now : Nat) : Option (ClaimedRow × List IngestionJob) :=
  match selectCandidate now lockTimeoutSeconds jobs with
  | none => none
  | some c =>
    let u := claimUpdate workerId now c
    some ({ id := u.id
            tenant_id := u.tenant_id
            workspace_id := u.workspace_id
            kb_id := u.kb_id
            document_id := u.document_id
            document_version_id := u.document_version_id
            attempt_count := u.attempt_count
            max_attempts := u.max_attempts },
          jobs.map (fun j => if j.id == c.id then claimUpdate workerId now j else j))

/-- Source `_touch_heartbeat`. -/
def touch_heartbeat (jobs : List IngestionJob) (jobId workerId : String)
    (now : Nat) : List IngestionJob :=
  jobs.map fun j =>
    if j.id == jobId then
      { j with heartbeat_at := some now, updated_at := now, locked_by := some workerId }
    else j

/-- Source `_mark_success`. -/
def mark_success (jobs : List IngestionJob) (jobId : String) (now : Nat) :
    List IngestionJob :=
  jobs.map fun j =>
    if j.id == jobId then
      { j with
        status := .completed
        stage := "completed"
        progress := 100
        finished_at := some now
        heartbeat_at := some now
        locked_at := none
        locked_by := none
        updated_at := now
        error := none }
    else j

/-- The backoff delay of `_mark_failure`:
`min(base_seconds * (2 ** max(0, attempt_count - 1)), max_seconds)`
(`Nat` subtraction is the `max(0, ·)`). -/
def backoffDelay (baseSeconds maxSeconds attemptCount : Nat) : Nat :=
  min (baseSeconds * 2 ^ (attemptCount - 1)) maxSeconds

/-- Source `_mark_failure`: retry iff `attempt_count < max_attempts`; the retrying
branch reschedules `next_run_at` and resets version/document status to
`pending`, the dead-letter branch stamps `finished_at` and marks them
`failed`; both clear the lock fields. -/
def mark_failure (db : Db) (jobId documentId documentVersionId : String)
    (attemptCount maxAttempts baseSeconds maxSeconds : Nat)
    (errorMessage : String) (now : Nat) : Db :=
  let delay := backoffDelay baseSeconds maxSeconds attemptCount
  if attemptCount < maxAttempts then
    { db with
      jobs := db.jobs.map fun j =>
        if j.id == jobId then
          { j with
            status := .retrying
            stage := "failed"
            progress := 0
            error := some errorMessage
            next_run_at := now + delay
            heartbeat_at := some now
            locked_at := none
            locked_by := none
            updated_at := now }
        else j
      versions := db.versions.map fun v =>
        if v.id == documentVersionId then { v with parse_status := "pending" } else v
      documents := db.documents.map fun d =>
        if d.id == documentId then { d with status := "pending", updated_at := now } else d }
  else
    { db with
      jobs := db.jobs.map fun j =>
        if j.id == jobId then
          { j with
            status := .dead_letter
            stage := "failed"
            progress := 0
            error := some errorMessage
            finished_at := some now
            heartbeat_at := some now
            locked_at := none
            locked_by := none
            updated_at := now }
        else j
      versions := db.versions.map fun v =>
        if v.id == documentVersionId then { v with parse_status := "failed" } else v
      documents := db.documents.map fun d =>
        if d.id == documentId then { d with status := "failed", updated_at := now } else d }

/-! ## Worker processing (`_read_text_from_object`, `_process_job`, `main`) -/

/-- Source `_read_text_from_object`: the object store is a partial map from object
key to decoded text (a missing key is the `FileNotFoundError`); `markdown`
and `generic` (and any unknown parser) read the text, `pdf` and `image` are
unconfigured and raise. -/
def read_text_from_object (store : String → Option (List Char))
    (objectKey : String) (parserType : Option String) :
    Except String (List Char) :=
  match store objectKey with
  | none => .error ("object not found: " ++ objectKey)
  | some content =>
    let parser := parserType.getD "generic"
    if parser == "markdown" || parser == "generic" then .ok content
    else if parser == "pdf" then .error "pdf parser not configured"
    else if parser == "image" then .error "image parser/ocr not configured"
    else .ok content

/-- Python `len(chunk.split())`: the number of maximal whitespace-free runs. -/
def pyWordCount (s : List Char) : Nat :=
  (s.foldl
    (fun (acc : Nat × Bool) c =>
      if c.isWhitespace then (acc.1, false)
      else if acc.2 then acc else (acc.1 + 1, true))
    (0, false)).1

/-- The `document_chunks` rows inserted by `_process_job` for `chunks`,
numbered from 1 (`enumerate(chunks, start=1)`); `freshId` stands for the
`uuid4()` per row. -/
def insertedChunks (freshId : Nat → String)
    (tenantId workspaceId kbId documentId documentVersionId : String)
    (chunks : List (List Char)) : List DocumentChunk :=
  (List.range chunks.length).zip chunks |>.map fun p =>
    { id := freshId p.1
      tenant_id := tenantId
      workspace_id := workspaceId
      kb_id := kbId
      document_id := documentId
      document_version_id := documentVersionId
      chunk_no := p.1 + 1
      content := p.2
      token_count := pyWordCount p.2 }

/-- Source `_process_job`: resolve the version/document join, bail out on a missing
version or empty object key, flip the document to `processing`, heartbeat,
read and decode the object, advance the job to `chunking`, chunk, replace the
version's chunk rows (embeddings first), and mark version/document
successful.  An `.error` is a raised exception: the enclosing transaction in
`main` rolls back, so the error carries no partial state. -/
def process_job (db : Db) (job : ClaimedRow)
    (store : String → Option (List Char)) (workerId : String)
    (freshId : Nat → String) (now : Nat) : Except String Db :=
  match db.versions.find? (fun v => v.id == job.document_version_id) with
  | none => .error ("document version not found: " ++ job.document_version_id)
  | some dv =>
    match db.documents.find? (fun d => d.id == dv.document_id) with
    | none => .error ("document version not found: " ++ job.document_version_id)
    | some d =>
      if !pyTruthy dv.object_key then
        .error "document version object_key is empty"
      else
        let objectKey := dv.object_key.getD ""
        let db : Db := { db with
          documents := db.documents.map fun x =>
            if x.id == job.document_id then
              { x with status := "processing", updated_at := now }
            else x }
        let db : Db := { db with jobs := touch_heartbeat db.jobs job.id workerId now }
        match read_text_from_object store objectKey dv.parser_type with
        | .error e => .error e
        | .ok content =>
          let db : Db := { db with
            jobs := db.jobs.map fun j =>
              if j.id == job.id then
                { j with stage := "chunking", progress := 45,
                         heartbeat_at := some now, updated_at := now }
              else j }
          let chunks := chunkText content
          if chunks.isEmpty then .error "document has no parseable content"
          else
            let oldIds := (db.chunks.filter
              (fun c => c.document_version_id == job.document_version_id)).map (·.id)
            let db : Db := { db with
              embeddings := db.embeddings.filter fun e => !oldIds.contains e.chunk_id
              chunks := db.chunks.filter
                fun c => !(c.document_version_id == job.document_version_id) }
            let db : Db := { db with
              chunks := db.chunks ++ insertedChunks freshId d.tenant_id
                d.workspace_id d.kb_id job.document_id job.document_version_id chunks }
            let db : Db := { db with
              versions := db.versions.map fun v =>
                if v.id == job.document_version_id then
                  { v with parse_status := "success" }
                else v }
            .ok { db with
              documents := db.documents.map fun x =>
                if x.id == job.document_id then
                  { x with status := "ready", updated_at := now }
                else x }

/-- Python `s[:n]` on a string: the first `n` code points. -/
def pyTruncate (s : String) (n : Nat) : String :=
  (s.toList.take n).asString

/-- The knobs of `tkp_worker.config.Settings` used by the loop. -/
structure WorkerSettings where
  worker_id : String
  worker_lock_timeout_seconds : Nat
  ingestion_retry_base_seconds : Nat
  ingestion_retry_max_seconds : Nat
deriving Repr

/-- One iteration of `main`'s `while True` loop, on a database snapshot.
No claim: sleep and poll again (the state is unchanged).  Claim: run
`_process_job` and `_mark_success` in one transaction; any exception rolls
that transaction back and runs `_mark_failure` on a fresh one, with the error
string truncated to 2000 characters (`str(exc)[:2000]`).  The function is
total: a failing job never ends the loop. -/
def worker_iteration (db : Db) (store : String → Option (List Char))
    (settings : WorkerSettings) (freshId : Nat → String) (now : Nat) : Db :=
  match claim_next_job db.jobs settings.worker_id
      settings.worker_lock_timeout_seconds now with
  | none => db
  | some (claimed, jobs') =>
    let db1 := { db with jobs := jobs' }
    match process_job db1 claimed store settings.worker_id freshId now with
    | .ok db2 => { db2 with jobs := mark_success db2.jobs claimed.id now }
    | .error exc =>
      mark_failure db1 claimed.id claimed.document_id claimed.document_version_id
        claimed.attempt_count claimed.max_attempts
        settings.ingestion_retry_base_seconds settings.ingestion_retry_max_seconds
        (pyTruncate exc 2000) now

/-! ## Shared demo rows (concrete inputs for witnesses) -/

/-- A freshly enqueued job row, as concrete claim-theorem input. -/
def demoJob : IngestionJob :=
  { id := "j1", tenant_id := "t1", workspace_id := "w1", kb_id := "k1",
    document_id := "d1", document_version_id := "v1", idempotency_key := "key1",
    status := .queued, stage := "queued", progress := 0,
    locked_at := none, locked_by := none, heartbeat_at := none,
    started_at := none, finished_at := none,
    attempt_count := 0, max_attempts := 5, next_run_at := 0, error := none,
    created_at := 0, updated_at := 0 }

/-- A pending document version pointing at object key `obj`. -/
def demoVersion : DocumentVersion :=
  { id := "v1", document_id := "d1", object_key := some "obj",
    parser_type := none, parse_status := "pending" }

/-- The document owning `demoVersion`. -/
def demoDocument : Document :=
  { id := "d1", tenant_id := "t1", workspace_id := "w1", kb_id := "k1",
    status := "pending", updated_at := 0 }

/-- A database holding exactly the demo job, version and document. -/
def demoDb : Db :=
  { jobs := [demoJob], versions := [demoVersion], documents := [demoDocument],
    chunks := [], embeddings := [] }

/-- Worker settings at the source defaults
(`tkp_worker.config.Settings`: lock timeout 300 s, backoff 15 s/1800 s). -/
def demoSettings : WorkerSettings :=
  { worker_id := "wrk", worker_lock_timeout_seconds := 300,
    ingestion_retry_base_seconds := 15, ingestion_retry_max_seconds := 1800 }

/-- An object store whose only object `obj` holds whitespace-only text. -/
def blankStore : String → Option (List Char) :=
  fun k => if k == "obj" then some ("  \t\n ".toList) else none

/-- A deterministic stand-in for the per-chunk `uuid4()`. -/
def demoFreshId : Nat → String := fun n => "chunk-" ++ toString n

/-! ## Candidate selection lemmas -/

/-- The `ORDER BY created_at ... LIMIT 1` fold never forgets an accumulator:
seeded with `some b`, it returns an element of the list or `b` itself. -/
theorem foldl_pick_mem {l : List IngestionJob} :
    ∀ {acc c : Option IngestionJob},
      l.foldl
        (fun acc j =>
          match acc with
          | none => some j
          | some b => if j.created_at < b.created_at then some j else acc)
        acc = c →
      c = acc ∨ ∃ j ∈ l, c = some j := by
  induction l with
  | nil => intro acc c h; exact Or.inl h.symm
  | cons x xs ih =>
    intro acc c h
    simp only [List.foldl_cons] at h
    rcases ih h with hstep | ⟨j, hj, hcj⟩
    · cases acc with
      | none => exact Or.inr ⟨x, List.mem_cons_self _ _, hstep⟩
      | some b =>
        by_cases hlt : x.created_at < b.created_at
        · simp only [hlt, if_pos] at hstep
          exact Or.inr ⟨x, List.mem_cons_self _ _, hstep⟩
        · simp only [hlt, if_neg, not_false_iff] at hstep
          exact Or.inl hstep
    · exact Or.inr ⟨j, List.mem_cons_of_mem _ hj, hcj⟩

/-- Seeded with `some b`, the candidate fold never yields `none`. -/
theorem foldl_pick_ne_none {l : List IngestionJob} :
    ∀ {b : IngestionJob},
      l.foldl
        (fun acc j =>
          match acc with
          | none => some j
          | some b => if j.created_at < b.created_at then some j else acc)
        (some b) ≠ none := by
  induction l with
  | nil => intro b h; exact Option.noConfusion h
  | cons x xs ih =>
    intro b
    simp only [List.foldl_cons]
    by_cases hlt : x.created_at < b.created_at
    · simp only [hlt, if_pos]; exact ih
    · simp only [hlt, if_neg, not_false_iff]; exact ih

/-- A selected candidate is a claimable row of the table. -/
theorem selectCandidate_mem {now lt : Nat} {jobs : List IngestionJob}
    {c : IngestionJob} (h : selectCandidate now lt jobs = some c) :
    c ∈ jobs ∧ claimable now lt c = true := by
  unfold selectCandidate at h
  rcases foldl_pick_mem h with hacc | ⟨j, hj, hcj⟩
  · exact Option.noConfusion hacc
  · obtain rfl : c = j := Option.some.inj hcj
    exact ⟨(List.mem_filter.mp hj).1, (List.mem_filter.mp hj).2⟩

/-- The fold `selectCandidate` yields `none` exactly when no row is claimable. -/
theorem selectCandidate_eq_none {now lt : Nat} {jobs : List IngestionJob} :
    selectCandidate now lt jobs = none ↔
      ∀ j ∈ jobs, claimable now lt j = false := by
  unfold selectCandidate
  constructor
  · intro h j hj
    cases hfil : jobs.filter (claimable now lt) with
    | nil =>
      have := List.filter_eq_nil_iff.mp hfil j hj
      exact Bool.eq_false_iff.mpr this
    | cons x xs =>
      rw [hfil] at h
      simp only [List.foldl_cons] at h
      exact absurd h foldl_pick_ne_none
  · intro h
    have hfil : jobs.filter (claimable now lt) = [] :=
      List.filter_eq_nil_iff.mpr fun j hj => by simp [h j hj]
    rw [hfil]
    rfl

/-! ## Claim theorems -/

/-- C1: `_claim_next_job` claims only rows satisfying the claimable
predicate (`status ∈ {queued, retrying}`, `next_run_at ≤ now`, lock absent
or expired); a successful claim updates exactly the selected row, setting
`status=processing`, `stage=loading`, `progress=5`, `locked_at=now`,
`locked_by=worker`, `heartbeat_at=now`, `started_at=COALESCE(started_at,now)`,
`attempt_count+1`, `error=NULL`, and returns the row's targeting fields and
attempt counters; it returns `none` exactly when no row is claimable. -/
theorem claim_next_job_correct (jobs : List IngestionJob) (w : String)
    (lt now : Nat) :
    (∀ r jobs', claim_next_job jobs w lt now = some (r, jobs') →
      ∃ j ∈ jobs, claimable now lt j = true ∧
        jobs' = jobs.map (fun x => if x.id == j.id then claimUpdate w now x else x) ∧
        claimUpdate w now j =
          { j with
            status := .processing, stage := "loading", progress := 5,
            locked_at := some now, locked_by := some w, heartbeat_at := some now,
            started_at := some (j.started_at.getD now),
            attempt_count := j.attempt_count + 1, updated_at := now,
            error := none } ∧
        r = { id := j.id, tenant_id := j.tenant_id,
              workspace_id := j.workspace_id, kb_id := j.kb_id,
              document_id := j.document_id,
              document_version_id := j.document_version_id,
              attempt_count := j.attempt_count + 1,
              max_attempts := j.max_attempts }) ∧
    (claim_next_job jobs w lt now = none ↔
      ∀ j ∈ jobs, claimable now lt j = false) := by
  constructor
  · intro r jobs' h
    unfold claim_next_job at h
    cases hc : selectCandidate now lt jobs with
    | none => rw [hc] at h; exact Option.noConfusion h
    | some c =>
      rw [hc] at h
      obtain ⟨hmem, hclaim⟩ := selectCandidate_mem hc
      simp only [Option.some.injEq, Prod.mk.injEq] at h
      obtain ⟨hr, hjobs⟩ := h
      exact ⟨c, hmem, hclaim, hjobs.symm, rfl, hr.symm⟩
  · unfold claim_next_job
    cases hc : selectCandidate now lt jobs with
    | none =>
      simp only [true_iff]
      exact fun j hj => selectCandidate_eq_none.mp hc j hj
    | some c =>
      constructor
      · intro h; exact Option.noConfusion h
      · intro hall
        have hnone := selectCandidate_eq_none.mpr hall
        rw [hc] at hnone
        exact Option.noConfusion hnone

/-- C1 witness: on a one-row table holding `demoJob` the claim succeeds and
the theorem's conclusion holds concretely. -/
theorem claim_next_job_correct_witness :
    ∃ j ∈ [demoJob], claimable 10 300 j = true ∧
      [claimUpdate "wrk" 10 demoJob] =
        [demoJob].map (fun x => if x.id == j.id then claimUpdate "wrk" 10 x else x) ∧
      claimUpdate "wrk" 10 j =
        { j with
          status := .processing, stage := "loading", progress := 5,
          locked_at := some 10, locked_by := some "wrk", heartbeat_at := some 10,
          started_at := some (j.started_at.getD 10),
          attempt_count := j.attempt_count + 1, updated_at := 10,
          error := none } ∧
      ({ id := "j1", tenant_id := "t1", workspace_id := "w1", kb_id := "k1",
         document_id := "d1", document_version_id := "v1",
         attempt_count := 1, max_attempts := 5 } : ClaimedRow) =
        { id := j.id, tenant_id := j.tenant_id,
          workspace_id := j.workspace_id, kb_id := j.kb_id,
          document_id := j.document_id,
          document_version_id := j.document_version_id,
          attempt_count := j.attempt_count + 1,
          max_attempts := j.max_attempts } :=
  (claim_next_job_correct [demoJob] "wrk" 300 10).1
    { id := "j1", tenant_id := "t1", workspace_id := "w1", kb_id := "k1",
      document_id := "d1", document_version_id := "v1",
      attempt_count := 1, max_attempts := 5 }
    [claimUpdate "wrk" 10 demoJob] (by decide)

/-- Equation: `enqueue_ingestion_job` unfolded to its lookup-or-insert case split. -/
theorem enqueue_ingestion_job_eq (hash : String → String)
    (jobs : List IngestionJob)
    (newId tenant ws kb doc ver action : String) (ck : Option String)
    (maxA now : Nat) :
    enqueue_ingestion_job hash jobs newId tenant ws kb doc ver action ck maxA now =
      match jobs.find? (jobKeyPred tenant
          (build_job_idempotency_key hash tenant ws kb doc ver action ck)) with
      | some existing => (existing, jobs)
      | none =>
        (enqueueNewRow newId tenant ws kb doc ver
           (build_job_idempotency_key hash tenant ws kb doc ver action ck) maxA now,
         jobs ++ [enqueueNewRow newId tenant ws kb doc ver
           (build_job_idempotency_key hash tenant ws kb doc ver action ck) maxA now]) :=
  rfl

set_option maxRecDepth 4000 in
set_option maxHeartbeats 1000000 in
/-- C2: `enqueue_ingestion_job` is idempotent.  Under the unique
`(tenant_id, idempotency_key)` constraint, two calls with identical inputs
derive the same key, return the same row, and leave exactly one row with
that `(tenant, key)`; a fresh `queued/queued/0/attempt_count=0/next_run_at=now`
row is inserted only when no row with the key exists, and the call is a
no-op when one does. -/
theorem enqueue_idempotent (hash : String → String) (jobs : List IngestionJob)
    (id1 id2 tenant ws kb doc ver action : String) (ck : Option String)
    (maxA now1 now2 : Nat) (j1 j2 : IngestionJob) (jobs1 jobs2 : List IngestionJob)
    (huniq : jobs.countP (jobKeyPred tenant
        (build_job_idempotency_key hash tenant ws kb doc ver action ck)) ≤ 1)
    (h1 : enqueue_ingestion_job hash jobs id1 tenant ws kb doc ver action ck
        maxA now1 = (j1, jobs1))
    (h2 : enqueue_ingestion_job hash jobs1 id2 tenant ws kb doc ver action ck
        maxA now2 = (j2, jobs2)) :
    j1.idempotency_key =
      build_job_idempotency_key hash tenant ws kb doc ver action ck ∧
    j1.tenant_id = tenant ∧ j2 = j1 ∧ jobs2 = jobs1 ∧
    jobs1.countP (jobKeyPred tenant
      (build_job_idempotency_key hash tenant ws kb doc ver action ck)) = 1 ∧
    (jobs.find? (jobKeyPred tenant
        (build_job_idempotency_key hash tenant ws kb doc ver action ck)) = none →
      jobs1 = jobs ++ [j1] ∧ j1.status = .queued ∧ j1.stage = "queued" ∧
      j1.progress = 0 ∧ j1.attempt_count = 0 ∧ j1.next_run_at = now1) ∧
    (∀ e, jobs.find? (jobKeyPred tenant
        (build_job_idempotency_key hash tenant ws kb doc ver action ck)) = some e →
      j1 = e ∧ jobs1 = jobs) := by
  rw [enqueue_ingestion_job_eq] at h1 h2
  generalize hK : build_job_idempotency_key hash tenant ws kb doc ver action ck = K at huniq h1 h2 ⊢
  cases hf : jobs.find? (jobKeyPred tenant K) with
  | some e =>
    rw [hf] at h1
    have h1' : (e, jobs) = (j1, jobs1) := h1
    obtain ⟨rfl, rfl⟩ : e = j1 ∧ jobs = jobs1 := Prod.ext_iff.mp h1'
    rw [hf] at h2
    have h2' : (e, jobs) = (j2, jobs2) := h2
    obtain ⟨rfl, rfl⟩ : e = j2 ∧ jobs = jobs2 := Prod.ext_iff.mp h2'
    have hpe : jobKeyPred tenant K e = true := List.find?_some hf
    have hme : e ∈ jobs := List.mem_of_find?_eq_some hf
    have hpe' := hpe
    simp only [jobKeyPred, Bool.and_eq_true, beq_iff_eq] at hpe'
    obtain ⟨hten, hkeyeq⟩ := hpe'
    refine ⟨hkeyeq, hten, rfl, rfl, ?_, ?_, ?_⟩
    · exact le_antisymm huniq (List.countP_pos_iff.mpr ⟨e, hme, hpe⟩)
    · intro hnone; exact Option.noConfusion hnone
    · intro e' he'
      exact ⟨Option.some.inj he', rfl⟩
  | none =>
    rw [hf] at h1
    have h1' : (enqueueNewRow id1 tenant ws kb doc ver K maxA now1,
        jobs ++ [enqueueNewRow id1 tenant ws kb doc ver K maxA now1]) =
        (j1, jobs1) := h1
    obtain ⟨rfl, rfl⟩ :
        enqueueNewRow id1 tenant ws kb doc ver K maxA now1 = j1 ∧
        jobs ++ [enqueueNewRow id1 tenant ws kb doc ver K maxA now1] = jobs1 :=
      Prod.ext_iff.mp h1'
    have hnew : jobKeyPred tenant K
        (enqueueNewRow id1 tenant ws kb doc ver K maxA now1) = true := by
      simp [jobKeyPred, enqueueNewRow]
    have hf2 : (jobs ++ [enqueueNewRow id1 tenant ws kb doc ver K maxA now1]).find?
        (jobKeyPred tenant K) =
        some (enqueueNewRow id1 tenant ws kb doc ver K maxA now1) := by
      rw [List.find?_append, hf]
      simp [List.find?_cons_of_pos, hnew]
    rw [hf2] at h2
    have h2' : (enqueueNewRow id1 tenant ws kb doc ver K maxA now1,
        jobs ++ [enqueueNewRow id1 tenant ws kb doc ver K maxA now1]) =
        (j2, jobs2) := h2
    obtain ⟨rfl, rfl⟩ :
        enqueueNewRow id1 tenant ws kb doc ver K maxA now1 = j2 ∧
        jobs ++ [enqueueNewRow id1 tenant ws kb doc ver K maxA now1] = jobs2 :=
      Prod.ext_iff.mp h2'
    have hcz : jobs.countP (jobKeyPred tenant K) = 0 :=
      List.countP_eq_zero.mpr fun a ha => by
        simp [List.find?_eq_none.mp hf a ha]
    refine ⟨?_, ?_, ?_, ?_, ?_, ?_, ?_⟩
    · rfl
    · rfl
    · rfl
    · rfl
    · simp [List.countP_append, hcz, List.countP_cons, hnew]
    · intro _
      exact ⟨rfl, rfl, rfl, rfl, rfl, rfl⟩
    · intro e' he'
      exact Option.noConfusion he'

set_option maxRecDepth 10000 in
/-- C2 witness: enqueueing twice into an empty table with identical inputs
(identity stand-in for the hash) inserts exactly one row and returns it both
times. -/
theorem enqueue_idempotent_witness :
    (enqueueNewRow "A" "t" "w" "k" "d" "v"
        (build_job_idempotency_key (fun s => s) "t" "w" "k" "d" "v" "upload" none)
        5 3).idempotency_key =
      build_job_idempotency_key (fun s => s) "t" "w" "k" "d" "v" "upload" none ∧
    (enqueueNewRow "A" "t" "w" "k" "d" "v"
        (build_job_idempotency_key (fun s => s) "t" "w" "k" "d" "v" "upload" none)
        5 3).tenant_id = "t" ∧
    enqueueNewRow "A" "t" "w" "k" "d" "v"
        (build_job_idempotency_key (fun s => s) "t" "w" "k" "d" "v" "upload" none)
        5 3 =
      enqueueNewRow "A" "t" "w" "k" "d" "v"
        (build_job_idempotency_key (fun s => s) "t" "w" "k" "d" "v" "upload" none)
        5 3 ∧
    [enqueueNewRow "A" "t" "w" "k" "d" "v"
        (build_job_idempotency_key (fun s => s) "t" "w" "k" "d" "v" "upload" none)
        5 3] =
      [enqueueNewRow "A" "t" "w" "k" "d" "v"
        (build_job_idempotency_key (fun s => s) "t" "w" "k" "d" "v" "upload" none)
        5 3] ∧
    List.countP (jobKeyPred "t"
        (build_job_idempotency_key (fun s => s) "t" "w" "k" "d" "v" "upload" none))
      [enqueueNewRow "A" "t" "w" "k" "d" "v"
        (build_job_idempotency_key (fun s => s) "t" "w" "k" "d" "v" "upload" none)
        5 3] = 1 ∧
    (([] : List IngestionJob).find? (jobKeyPred "t"
        (build_job_idempotency_key (fun s => s) "t" "w" "k" "d" "v" "upload" none))
        = none →
      [enqueueNewRow "A" "t" "w" "k" "d" "v"
        (build_job_idempotency_key (fun s => s) "t" "w" "k" "d" "v" "upload" none)
        5 3] =
        [] ++ [enqueueNewRow "A" "t" "w" "k" "d" "v"
          (build_job_idempotency_key (fun s => s) "t" "w" "k" "d" "v" "upload" none)
          5 3] ∧
      (enqueueNewRow "A" "t" "w" "k" "d" "v"
        (build_job_idempotency_key (fun s => s) "t" "w" "k" "d" "v" "upload" none)
        5 3).status = .queued ∧
      (enqueueNewRow "A" "t" "w" "k" "d" "v"
        (build_job_idempotency_key (fun s => s) "t" "w" "k" "d" "v" "upload" none)
        5 3).stage = "queued" ∧
      (enqueueNewRow "A" "t" "w" "k" "d" "v"
        (build_job_idempotency_key (fun s => s) "t" "w" "k" "d" "v" "upload" none)
        5 3).progress = 0 ∧
      (enqueueNewRow "A" "t" "w" "k" "d" "v"
        (build_job_idempotency_key (fun s => s) "t" "w" "k" "d" "v" "upload" none)
        5 3).attempt_count = 0 ∧
      (enqueueNewRow "A" "t" "w" "k" "d" "v"
        (build_job_idempotency_key (fun s => s) "t" "w" "k" "d" "v" "upload" none)
        5 3).next_run_at = 3) ∧
    (∀ e, ([] : List IngestionJob).find? (jobKeyPred "t"
        (build_job_idempotency_key (fun s => s) "t" "w" "k" "d" "v" "upload" none))
        = some e →
      enqueueNewRow "A" "t" "w" "k" "d" "v"
        (build_job_idempotency_key (fun s => s) "t" "w" "k" "d" "v" "upload" none)
        5 3 = e ∧
      [enqueueNewRow "A" "t" "w" "k" "d" "v"
        (build_job_idempotency_key (fun s => s) "t" "w" "k" "d" "v" "upload" none)
        5 3] = ([] : List IngestionJob)) :=
  enqueue_idempotent (fun s => s) [] "A" "B" "t" "w" "k" "d" "v" "upload" none
    5 3 7
    (enqueueNewRow "A" "t" "w" "k" "d" "v"
      (build_job_idempotency_key (fun s => s) "t" "w" "k" "d" "v" "upload" none)
      5 3)
    (enqueueNewRow "A" "t" "w" "k" "d" "v"
      (build_job_idempotency_key (fun s => s) "t" "w" "k" "d" "v" "upload" none)
      5 3)
    [enqueueNewRow "A" "t" "w" "k" "d" "v"
      (build_job_idempotency_key (fun s => s) "t" "w" "k" "d" "v" "upload" none)
      5 3]
    [enqueueNewRow "A" "t" "w" "k" "d" "v"
      (build_job_idempotency_key (fun s => s) "t" "w" "k" "d" "v" "upload" none)
      5 3]
    (by decide) (by decide) (by decide)

/-- C3: `_mark_failure` retries iff `attempt_count < max_attempts`, and a
retry reschedules `next_run_at = now + min(base * 2^(attempt_count-1), max)`;
concretely with base 15 s and cap 1800 s the delay is 15 s at attempt 1 and
120 s at attempt 4, and at `attempt_count = max_attempts` the row becomes
`dead_letter`, not `retrying`. -/
theorem mark_failure_retry_policy (db : Db) (jobId docId verId : String)
    (attempt maxA base maxS : Nat) (err : String) (now : Nat)
    (j : IngestionJob) (hmem : j ∈ db.jobs) (hid : j.id = jobId) :
    (∃ u ∈ (mark_failure db jobId docId verId attempt maxA base maxS err now).jobs,
      u.id = jobId ∧
      (attempt < maxA →
        u.status = .retrying ∧
        u.next_run_at = now + backoffDelay base maxS attempt) ∧
      (¬ attempt < maxA →
        u.status = .dead_letter ∧ u.status ≠ .retrying ∧
        u.finished_at = some now)) ∧
    backoffDelay 15 1800 1 = 15 ∧ backoffDelay 15 1800 4 = 120 := by
  constructor
  · by_cases h : attempt < maxA
    · simp only [mark_failure, if_pos h]
      refine ⟨_, List.mem_map_of_mem _ hmem, ?_⟩
      simp [hid, h]
    · simp only [mark_failure, if_neg h]
      refine ⟨_, List.mem_map_of_mem _ hmem, ?_⟩
      simp [hid, h]
  · exact ⟨by decide, by decide⟩

/-- C3 witness: failing `demoJob` at attempt 1 of 5 with base 15 s / cap
1800 s instantiates the retry policy concretely. -/
theorem mark_failure_retry_policy_witness :
    (∃ u ∈ (mark_failure demoDb "j1" "d1" "v1" 1 5 15 1800 "boom" 10).jobs,
      u.id = "j1" ∧
      (1 < 5 →
        u.status = .retrying ∧ u.next_run_at = 10 + backoffDelay 15 1800 1) ∧
      (¬ 1 < 5 →
        u.status = .dead_letter ∧ u.status ≠ .retrying ∧
        u.finished_at = some 10)) ∧
    backoffDelay 15 1800 1 = 15 ∧ backoffDelay 15 1800 4 = 120 :=
  mark_failure_retry_policy demoDb "j1" "d1" "v1" 1 5 15 1800 "boom" 10 demoJob
    (by decide) rfl

/-- Spec §3 invariant: every job in a terminal status (`completed` or
`dead_letter`) carries a non-null `finished_at`. -/
def finishedInv (jobs : List IngestionJob) : Prop :=
  ∀ j ∈ jobs, (j.status = .completed ∨ j.status = .dead_letter) →
    j.finished_at ≠ none

/-- Inversion of a successful `_claim_next_job`: the returned row and table
are built from the selected candidate. -/
theorem claim_next_job_inv {jobs : List IngestionJob} {w : String}
    {lt now : Nat} {r : ClaimedRow} {jobs' : List IngestionJob}
    (h : claim_next_job jobs w lt now = some (r, jobs')) :
    ∃ c, selectCandidate now lt jobs = some c ∧
      r = { id := c.id, tenant_id := c.tenant_id,
            workspace_id := c.workspace_id, kb_id := c.kb_id,
            document_id := c.document_id,
            document_version_id := c.document_version_id,
            attempt_count := c.attempt_count + 1,
            max_attempts := c.max_attempts } ∧
      jobs' = jobs.map (fun x => if x.id == c.id then claimUpdate w now x else x) := by
  unfold claim_next_job at h
  cases hc : selectCandidate now lt jobs with
  | none => rw [hc] at h; exact Option.noConfusion h
  | some c =>
    rw [hc] at h
    obtain ⟨hr, hj⟩ := Prod.ext_iff.mp (Option.some.inj h)
    exact ⟨c, rfl, hr.symm, hj.symm⟩

/-- C5: `_mark_success` sets `status=completed`, `stage=completed`,
`progress=100`, `finished_at=now`, and clears the lock fields and `error`;
and the invariant "terminal status implies non-null `finished_at`" is
preserved by every repository operation (success, failure, claim,
heartbeat, enqueue). -/
theorem complete_terminal_bookkeeping :
    (∀ (jobs : List IngestionJob) (jobId : String) (now : Nat) j,
      j ∈ jobs → j.id = jobId →
      ∃ u ∈ mark_success jobs jobId now,
        u.id = jobId ∧ u.status = .completed ∧ u.stage = "completed" ∧
        u.progress = 100 ∧ u.finished_at = some now ∧
        u.locked_at = none ∧ u.locked_by = none ∧ u.error = none) ∧
    (∀ (jobs : List IngestionJob) (jobId : String) (now : Nat),
      finishedInv jobs → finishedInv (mark_success jobs jobId now)) ∧
    (∀ (db : Db) (jobId docId verId : String) (attempt maxA base maxS : Nat)
        (err : String) (now : Nat),
      finishedInv db.jobs →
      finishedInv (mark_failure db jobId docId verId attempt maxA base maxS
        err now).jobs) ∧
    (∀ (jobs : List IngestionJob) (w : String) (lt now : Nat) r jobs',
      claim_next_job jobs w lt now = some (r, jobs') →
      finishedInv jobs → finishedInv jobs') ∧
    (∀ (jobs : List IngestionJob) (jobId workerId : String) (now : Nat),
      finishedInv jobs → finishedInv (touch_heartbeat jobs jobId workerId now)) ∧
    (∀ (hash : String → String) (jobs : List IngestionJob)
        (newId tenant ws kb doc ver action : String) (ck : Option String)
        (maxA now : Nat) j' jobs',
      enqueue_ingestion_job hash jobs newId tenant ws kb doc ver action ck
        maxA now = (j', jobs') →
      finishedInv jobs → finishedInv jobs') := by
  refine ⟨?_, ?_, ?_, ?_, ?_, ?_⟩
  · intro jobs jobId now j hmem hid
    simp only [mark_success]
    refine ⟨_, List.mem_map_of_mem _ hmem, ?_⟩
    simp [hid]
  · intro jobs jobId now hinv u hu hterm
    simp only [mark_success] at hu
    obtain ⟨j, hj, rfl⟩ := List.mem_map.mp hu
    by_cases hb : (j.id == jobId) = true
    · rw [if_pos hb]; simp
    · rw [if_neg hb] at hterm ⊢
      exact hinv j hj hterm
  · intro db jobId docId verId attempt maxA base maxS err now hinv u hu hterm
    by_cases ha : attempt < maxA
    · simp only [mark_failure, if_pos ha] at hu
      obtain ⟨j, hj, rfl⟩ := List.mem_map.mp hu
      by_cases hb : (j.id == jobId) = true
      · rw [if_pos hb] at hterm
        simp at hterm
      · rw [if_neg hb] at hterm ⊢
        exact hinv j hj hterm
    · simp only [mark_failure, if_neg ha] at hu
      obtain ⟨j, hj, rfl⟩ := List.mem_map.mp hu
      by_cases hb : (j.id == jobId) = true
      · rw [if_pos hb]; simp
      · rw [if_neg hb] at hterm ⊢
        exact hinv j hj hterm
  · intro jobs w lt now r jobs' h hinv u hu hterm
    obtain ⟨c, _, _, rfl⟩ := claim_next_job_inv h
    obtain ⟨j, hj, rfl⟩ := List.mem_map.mp hu
    by_cases hb : (j.id == c.id) = true
    · rw [if_pos hb] at hterm
      simp [claimUpdate] at hterm
    · rw [if_neg hb] at hterm ⊢
      exact hinv j hj hterm
  · intro jobs jobId workerId now hinv u hu hterm
    simp only [touch_heartbeat] at hu
    obtain ⟨j, hj, rfl⟩ := List.mem_map.mp hu
    by_cases hb : (j.id == jobId) = true
    · rw [if_pos hb] at hterm ⊢
      exact hinv j hj hterm
    · rw [if_neg hb] at hterm ⊢
      exact hinv j hj hterm
  · intro hash jobs newId tenant ws kb doc ver action ck maxA now j' jobs'
      h hinv u hu hterm
    rw [enqueue_ingestion_job_eq] at h
    cases hf : jobs.find? (jobKeyPred tenant
        (build_job_idempotency_key hash tenant ws kb doc ver action ck)) with
    | some e =>
      rw [hf] at h
      obtain ⟨-, rfl⟩ :
          e = j' ∧ jobs = jobs' := Prod.ext_iff.mp h
      exact hinv u hu hterm
    | none =>
      rw [hf] at h
      obtain ⟨-, rfl⟩ :
          enqueueNewRow newId tenant ws kb doc ver
            (build_job_idempotency_key hash tenant ws kb doc ver action ck)
            maxA now = j' ∧
          jobs ++ [enqueueNewRow newId tenant ws kb doc ver
            (build_job_idempotency_key hash tenant ws kb doc ver action ck)
            maxA now] = jobs' := Prod.ext_iff.mp h
      rcases List.mem_append.mp hu with hmem | hmem
      · exact hinv u hmem hterm
      · obtain rfl := List.mem_singleton.mp hmem
        simp [enqueueNewRow] at hterm

/-- C5 witness: completing `demoJob` concretely sets the terminal fields and
preserves the invariant. -/
theorem complete_terminal_bookkeeping_witness :
    (∃ u ∈ mark_success [demoJob] "j1" 10,
      u.id = "j1" ∧ u.status = .completed ∧ u.stage = "completed" ∧
      u.progress = 100 ∧ u.finished_at = some 10 ∧
      u.locked_at = none ∧ u.locked_by = none ∧ u.error = none) ∧
    finishedInv (mark_success [demoJob] "j1" 10) :=
  ⟨complete_terminal_bookkeeping.1 [demoJob] "j1" 10 demoJob (by decide) rfl,
   complete_terminal_bookkeeping.2.1 [demoJob] "j1" 10
     (by unfold finishedInv; decide)⟩

/-- C6: `_mark_failure` clears `locked_at`/`locked_by` in both the retrying
and the dead-letter branch, and sets the document version's parse status and
the document's status to `pending` when a retry remains
(`attempt_count < max_attempts`) and to `failed` when the job is
dead-lettered. -/
theorem mark_failure_clears_locks_and_statuses (db : Db)
    (jobId docId verId : String) (attempt maxA base maxS : Nat)
    (err : String) (now : Nat)
    (j : IngestionJob) (hjmem : j ∈ db.jobs) (hjid : j.id = jobId)
    (v : DocumentVersion) (hvmem : v ∈ db.versions) (hvid : v.id = verId)
    (d : Document) (hdmem : d ∈ db.documents) (hdid : d.id = docId) :
    (∃ u ∈ (mark_failure db jobId docId verId attempt maxA base maxS
        err now).jobs,
      u.id = jobId ∧ u.locked_at = none ∧ u.locked_by = none ∧
      u.error = some err) ∧
    (∃ v' ∈ (mark_failure db jobId docId verId attempt maxA base maxS
        err now).versions,
      v'.id = verId ∧
      v'.parse_status = if attempt < maxA then "pending" else "failed") ∧
    (∃ d' ∈ (mark_failure db jobId docId verId attempt maxA base maxS
        err now).documents,
      d'.id = docId ∧
      d'.status = if attempt < maxA then "pending" else "failed") := by
  by_cases ha : attempt < maxA
  · simp only [mark_failure, if_pos ha]
    refine ⟨⟨_, List.mem_map_of_mem _ hjmem, ?_⟩,
      ⟨_, List.mem_map_of_mem _ hvmem, ?_⟩,
      ⟨_, List.mem_map_of_mem _ hdmem, ?_⟩⟩
    · simp [hjid]
    · simp [hvid]
    · simp [hdid]
  · simp only [mark_failure, if_neg ha]
    refine ⟨⟨_, List.mem_map_of_mem _ hjmem, ?_⟩,
      ⟨_, List.mem_map_of_mem _ hvmem, ?_⟩,
      ⟨_, List.mem_map_of_mem _ hdmem, ?_⟩⟩
    · simp [hjid]
    · simp [hvid, ha]
    · simp [hdid, ha]

/-- C6 witness: failing the demo job at attempt 1 of 5 clears the lock and
resets the version and document to `pending`. -/
theorem mark_failure_clears_locks_and_statuses_witness :
    (∃ u ∈ (mark_failure demoDb "j1" "d1" "v1" 1 5 15 1800 "boom" 10).jobs,
      u.id = "j1" ∧ u.locked_at = none ∧ u.locked_by = none ∧
      u.error = some "boom") ∧
    (∃ v' ∈ (mark_failure demoDb "j1" "d1" "v1" 1 5 15 1800 "boom" 10).versions,
      v'.id = "v1" ∧ v'.parse_status = if 1 < 5 then "pending" else "failed") ∧
    (∃ d' ∈ (mark_failure demoDb "j1" "d1" "v1" 1 5 15 1800 "boom" 10).documents,
      d'.id = "d1" ∧ d'.status = if 1 < 5 then "pending" else "failed") :=
  mark_failure_clears_locks_and_statuses demoDb "j1" "d1" "v1" 1 5 15 1800
    "boom" 10 demoJob (by decide) rfl demoVersion (by decide) rfl
    demoDocument (by decide) rfl

/-- C10: an empty-string client idempotency key is falsy under the source's
`if client_key:` check, so it derives exactly the key derived with no client
key at all, and the two enqueue calls collapse onto the same job. -/
theorem build_key_empty_client_key_eq_none (hash : String → String)
    (tenant ws kb doc ver action : String) :
    build_job_idempotency_key hash tenant ws kb doc ver action (some "") =
      build_job_idempotency_key hash tenant ws kb doc ver action none := rfl

/-! ## Chunker coverage and termination lemmas -/

/-- One `while`-iteration of `chunkLoop` whose window reaches the end of the
text (`end >= total`: append and stop). -/
theorem chunkLoop_step_done {cs : List Char} {c o fuel start : Nat}
    {chunks : List (List Char)} {windows : List (Nat × Nat)}
    (hs : start < cs.length) (hdone : cs.length ≤ min cs.length (start + c)) :
    chunkLoop cs c o (fuel + 1) start chunks windows =
      some
        ((if (pyStrip (pySlice cs start (min cs.length (start + c)))).isEmpty
            then chunks
            else chunks ++ [pyStrip (pySlice cs start (min cs.length (start + c)))]),
         windows ++ [(start, min cs.length (start + c))]) := by
  simp only [chunkLoop]
  rw [if_pos hs, if_pos hdone]

/-- One `while`-iteration of `chunkLoop` whose window stops short of the end
(`end < total`: append and slide the start to `end - overlap`). -/
theorem chunkLoop_step_next {cs : List Char} {c o fuel start : Nat}
    {chunks : List (List Char)} {windows : List (Nat × Nat)}
    (hs : start < cs.length) (hnext : ¬ cs.length ≤ min cs.length (start + c)) :
    chunkLoop cs c o (fuel + 1) start chunks windows =
      chunkLoop cs c o fuel (min cs.length (start + c) - o)
        (if (pyStrip (pySlice cs start (min cs.length (start + c)))).isEmpty
           then chunks
           else chunks ++ [pyStrip (pySlice cs start (min cs.length (start + c)))])
        (windows ++ [(start, min cs.length (start + c))]) := by
  simp only [chunkLoop]
  rw [if_pos hs, if_neg hnext]

/-- With `overlap < chunkSize`, `chunkLoop` exits within `total - start`
iterations, its accumulated windows survive to the result, and the windows
it appends cover every position from `start` to the end of the text. -/
theorem chunkLoop_run {cs : List Char} {chunkSize overlap : Nat}
    (hco : overlap < chunkSize) :
    ∀ (fuel : Nat), ∀ (start : Nat) (chunks : List (List Char))
      (windows : List (Nat × Nat)),
      start < cs.length → cs.length - start ≤ fuel →
      ∃ chunks' windows',
        chunkLoop cs chunkSize overlap fuel start chunks windows =
          some (chunks', windows') ∧
        (∀ w ∈ windows, w ∈ windows') ∧
        (∀ i, start ≤ i → i < cs.length →
          ∃ w ∈ windows', w.1 ≤ i ∧ i < w.2) := by
  intro fuel
  induction fuel with
  | zero =>
    intro start chunks windows hs hf
    exact absurd hs (by omega)
  | succ fuel ih =>
    intro start chunks windows hs hf
    by_cases hdone : cs.length ≤ min cs.length (start + chunkSize)
    · rw [chunkLoop_step_done hs hdone]
      refine ⟨_, windows ++ [(start, min cs.length (start + chunkSize))],
        rfl, ?_, ?_⟩
      · intro w hw; exact List.mem_append_left _ hw
      · intro i hi1 hi2
        exact ⟨(start, min cs.length (start + chunkSize)),
          List.mem_append_right _ (List.mem_singleton.mpr rfl),
          hi1, lt_of_lt_of_le hi2 hdone⟩
    · have he : min cs.length (start + chunkSize) = start + chunkSize := by
        omega
      have hlt : start + chunkSize < cs.length := by
        omega
      rw [chunkLoop_step_next hs hdone, he]
      have hs' : start + chunkSize - overlap < cs.length := by omega
      have hf' : cs.length - (start + chunkSize - overlap) ≤ fuel := by omega
      obtain ⟨chunks', windows', heq, hsub, hcov⟩ :=
        ih (start + chunkSize - overlap) _ _ hs' hf'
      refine ⟨chunks', windows', heq, ?_, ?_⟩
      · intro w hw; exact hsub w (List.mem_append_left _ hw)
      · intro i hi1 hi2
        by_cases hie : i < start + chunkSize
        · exact ⟨(start, start + chunkSize),
            hsub _ (List.mem_append_right _ (List.mem_singleton.mpr rfl)),
            hi1, hie⟩
        · exact hcov i (by omega) hi2

/-- C4: for a non-empty (after trimming) text and `chunkSize > overlap ≥ 0`,
the windows taken by `_chunk_text` cover every character position of the
trimmed input, and `_chunk_text("hello world", 900, 120)` is exactly
`["hello world"]`. -/
theorem chunk_coverage :
    (∀ (content : List Char) (chunkSize overlap : Nat),
      overlap < chunkSize → pyStrip content ≠ [] →
      ∃ chunks windows,
        chunkTextFueled content chunkSize overlap = some chunks ∧
        chunkWindows content chunkSize overlap = some windows ∧
        ∀ i < (pyStrip content).length,
          ∃ w ∈ windows, w.1 ≤ i ∧ i < w.2) ∧
    chunkTextFueled ("hello world".toList) 900 120 =
      some ["hello world".toList] := by
  constructor
  · intro content c o hco hne
    have hlen : 0 < (pyStrip content).length := List.length_pos.mpr hne
    have hemp : ¬ (pyStrip content).isEmpty = true := by
      simp [List.isEmpty_iff, hne]
    obtain ⟨chunks', windows', heq, -, hcov⟩ :=
      chunkLoop_run hco ((pyStrip content).length + 1) 0 [] [] hlen (by omega)
    refine ⟨chunks', windows', ?_, ?_, fun i hi => hcov i (Nat.zero_le i) hi⟩
    · simp only [chunkTextFueled]
      rw [if_neg hemp, heq]
      rfl
    · simp only [chunkWindows]
      rw [if_neg hemp, heq]
      rfl
  · decide

/-- C4 witness: the coverage statement instantiated at `"hello world"` with
the source defaults. -/
theorem chunk_coverage_witness :
    ∃ chunks windows,
      chunkTextFueled ("hello world".toList) 900 120 = some chunks ∧
      chunkWindows ("hello world".toList) 900 120 = some windows ∧
      ∀ i < (pyStrip ("hello world".toList)).length,
        ∃ w ∈ windows, w.1 ≤ i ∧ i < w.2 :=
  chunk_coverage.1 ("hello world".toList) 900 120 (by decide) (by decide)

/-- Helper for the C8 counterexample: on the three-character text `"aaa"`
with `chunkSize=2, overlap=3` the window start is computed as
`max(0, 2 - 3) = 0` on every iteration, so the loop never exits no matter
how much fuel it is given. -/
theorem chunkLoop_stuck :
    ∀ (fuel : Nat) (chunks : List (List Char)) (windows : List (Nat × Nat)),
      chunkLoop ("aaa".toList) 2 3 fuel 0 chunks windows = none := by
  intro fuel
  induction fuel with
  | zero => intro chunks windows; rfl
  | succ fuel ih =>
    intro chunks windows
    rw [chunkLoop_step_next (by decide) (by decide)]
    exact ih _ _

/-- C8 counterexample: `_chunk_text("aaa", chunkSize=2, overlap=3)` never
terminates — the claim's "the loop makes progress even when
overlap >= chunkSize" fails on the code, whose clamp is only
`max(0, end - overlap)`. -/
theorem chunk_nonterminating_counterexample :
    chunkTextFueled ("aaa".toList) 2 3 = none ∧
    ¬ ∃ fuel r, chunkLoop ("aaa".toList) 2 3 fuel 0 [] [] = some r := by
  refine ⟨by decide, ?_⟩
  rintro ⟨fuel, r, h⟩
  rw [chunkLoop_stuck fuel [] []] at h
  exact Option.noConfusion h

/-- C8 (amended): `_chunk_text` terminates whenever `chunkSize > overlap`
(each step then advances the window start by `chunkSize - overlap ≥ 1`, and
the start never goes negative thanks to the `max(0, ...)` clamp); with
`overlap ≥ chunkSize` and a trimmed text longer than `chunkSize` the loop
makes no progress and does not terminate. -/
theorem chunk_terminates_of_overlap_lt (content : List Char)
    (chunkSize overlap : Nat) (hco : overlap < chunkSize) :
    ∃ chunks, chunkTextFueled content chunkSize overlap = some chunks := by
  by_cases hne : pyStrip content = []
  · refine ⟨[], ?_⟩
    simp [chunkTextFueled, List.isEmpty_iff, hne]
  · have hemp : ¬ (pyStrip content).isEmpty = true := by
      simp [List.isEmpty_iff, hne]
    obtain ⟨chunks', windows', heq, -, -⟩ :=
      chunkLoop_run hco ((pyStrip content).length + 1) 0 [] []
        (List.length_pos.mpr hne) (by omega)
    refine ⟨chunks', ?_⟩
    simp only [chunkTextFueled]
    rw [if_neg hemp, heq]
    rfl

/-- C8 amended-claim witness: termination at the source defaults on a
concrete text. -/
theorem chunk_terminates_of_overlap_lt_witness :
    ∃ chunks, chunkTextFueled ("hello world".toList) 900 120 = some chunks :=
  chunk_terminates_of_overlap_lt ("hello world".toList) 900 120 (by decide)

/-- C7: chunking an empty or whitespace-only text returns the empty list
(no exception), and the worker treats the empty chunk result of a claimed
job as the job failure `document has no parseable content` routed through
`_mark_failure`: on the demo database whose stored object is
whitespace-only, `_process_job` raises exactly that error and the worker
iteration ends in the corresponding Fail transition instead of crashing. -/
theorem empty_text_zero_chunks_fails_job :
    (∀ (content : List Char) (chunkSize overlap : Nat),
      pyStrip content = [] →
      chunkTextFueled content chunkSize overlap = some []) ∧
    process_job { demoDb with jobs := [claimUpdate "wrk" 10 demoJob] }
        { id := "j1", tenant_id := "t1", workspace_id := "w1", kb_id := "k1",
          document_id := "d1", document_version_id := "v1",
          attempt_count := 1, max_attempts := 5 } blankStore "wrk"
        demoFreshId 10 = .error "document has no parseable content" ∧
    worker_iteration demoDb blankStore demoSettings demoFreshId 10 =
      mark_failure { demoDb with jobs := [claimUpdate "wrk" 10 demoJob] }
        "j1" "d1" "v1" 1 5 15 1800 "document has no parseable content" 10 := by
  refine ⟨?_, rfl, by decide⟩
  intro content c o h
  simp [chunkTextFueled, List.isEmpty_iff, h]

/-- C7 witness: the empty-chunk clause instantiated on whitespace-only
text. -/
theorem empty_text_zero_chunks_fails_job_witness :
    chunkTextFueled ("  \t\n ".toList) 900 120 = some [] :=
  empty_text_zero_chunks_fails_job.1 ("  \t\n ".toList) 900 120 (by decide)

/-- C9: when a claimed job's processing raises, the worker iteration routes
the failure through `_mark_failure` with the error truncated to at most 2000
characters (`str(exc)[:2000]`), the stored row carries that truncated error
and a `retrying`/`dead_letter` status, and the iteration still produces the
next database state (the loop never exits because of the job). -/
theorem worker_failure_boundary (db : Db) (store : String → Option (List Char))
    (settings : WorkerSettings) (freshId : Nat → String) (now : Nat)
    (claimed : ClaimedRow) (jobs' : List IngestionJob) (e : String)
    (hclaim : claim_next_job db.jobs settings.worker_id
        settings.worker_lock_timeout_seconds now = some (claimed, jobs'))
    (herr : process_job { db with jobs := jobs' } claimed store
        settings.worker_id freshId now = .error e) :
    worker_iteration db store settings freshId now =
      mark_failure { db with jobs := jobs' } claimed.id claimed.document_id
        claimed.document_version_id claimed.attempt_count claimed.max_attempts
        settings.ingestion_retry_base_seconds
        settings.ingestion_retry_max_seconds (pyTruncate e 2000) now ∧
    (pyTruncate e 2000).length ≤ 2000 ∧
    ∃ u ∈ (worker_iteration db store settings freshId now).jobs,
      u.id = claimed.id ∧ u.error = some (pyTruncate e 2000) ∧
      (u.status = .retrying ∨ u.status = .dead_letter) := by
  have hiter : worker_iteration db store settings freshId now =
      mark_failure { db with jobs := jobs' } claimed.id claimed.document_id
        claimed.document_version_id claimed.attempt_count claimed.max_attempts
        settings.ingestion_retry_base_seconds
        settings.ingestion_retry_max_seconds (pyTruncate e 2000) now := by
    simp only [worker_iteration, hclaim]
    simp only [herr]
  have hlen : (pyTruncate e 2000).length ≤ 2000 := by
    have h : (pyTruncate e 2000).length = (e.toList.take 2000).length := rfl
    rw [h, List.length_take]
    exact min_le_left _ _
  refine ⟨hiter, hlen, ?_⟩
  obtain ⟨c, hsel, hrow, hjobs'⟩ := claim_next_job_inv hclaim
  obtain ⟨hcmem, -⟩ := selectCandidate_mem hsel
  have hcu : claimUpdate settings.worker_id now c ∈ jobs' := by
    rw [hjobs']
    have hmap := List.mem_map_of_mem
      (fun x => if x.id == c.id then claimUpdate settings.worker_id now x else x)
      hcmem
    simpa using hmap
  have hcid : (claimUpdate settings.worker_id now c).id = claimed.id := by
    rw [hrow]
    rfl
  rw [hiter]
  by_cases ha : claimed.attempt_count < claimed.max_attempts
  · simp only [mark_failure, if_pos ha]
    refine ⟨_, List.mem_map_of_mem _ hcu, ?_⟩
    simp [hcid]
  · simp only [mark_failure, if_neg ha]
    refine ⟨_, List.mem_map_of_mem _ hcu, ?_⟩
    simp [hcid]

/-- C9 witness: on the demo database with the whitespace-only object, the
claimed job's processing error is stored truncated and the row goes to
`retrying`. -/
theorem worker_failure_boundary_witness :
    worker_iteration demoDb blankStore demoSettings demoFreshId 10 =
      mark_failure { demoDb with jobs := [claimUpdate "wrk" 10 demoJob] }
        "j1" "d1" "v1" 1 5 15 1800
        (pyTruncate "document has no parseable content" 2000) 10 ∧
    (pyTruncate "document has no parseable content" 2000).length ≤ 2000 ∧
    ∃ u ∈ (worker_iteration demoDb blankStore demoSettings demoFreshId 10).jobs,
      u.id = "j1" ∧
      u.error = some (pyTruncate "document has no parseable content" 2000) ∧
      (u.status = .retrying ∨ u.status = .dead_letter) :=
  worker_failure_boundary demoDb blankStore demoSettings demoFreshId 10
    { id := "j1", tenant_id := "t1", workspace_id := "w1", kb_id := "k1",
      document_id := "d1", document_version_id := "v1",
      attempt_count := 1, max_attempts := 5 }
    [claimUpdate "wrk" 10 demoJob] "document has no parseable content"
    (by decide) rfl

end TkpPlatform
